import Mathlib

/-!
Verification of the memory-card game engine in `src/index.tsx`.

The React component's state hooks are embedded as one explicit state record
(`AppState`); each handler / effect body becomes a pure function on that
record.  JavaScript array indexing that can read a property of `undefined`
(a thrown `TypeError`) is embedded as `Except Unit`.  The outcome of the
comparator-based random shuffle (`.sort(() => Math.random() - 0.5)`) is an
unknown permutation of the input, so deck facts are quantified over every
permutation.  `Array.prototype.sort` with the numeric high-score comparator
is a stable sort, which is uniquely determined, so it is embedded as
`List.insertionSort` (stable: earlier element wins ties).
-/

/-- The image pool (src/index.tsx lines 6–17). -/
def IMAGE_PATHS : List String :=
  [ "/images/image-1.png", "/images/image-2.png", "/images/image-3.png",
    "/images/image-4.png", "/images/image-5.png", "/images/image-6.png",
    "/images/image-7.png", "/images/image-8.png", "/images/image-9.png",
    "/images/image-10.png" ]

def GRID_ROWS : Nat := 5

def GRID_COLS : Nat := 4

/-- 3 minutes, in seconds (line 21). -/
def GAME_DURATION : Nat := 180

/-- Structure `CardState` (lines 23–29). -/
structure CardState where
  id : Nat
  imageId : Nat
  imageUrl : String
  isFlipped : Bool
  isMatched : Bool
deriving DecidableEq

/-- Structure `HighScore` (lines 31–35). -/
structure HighScore where
  name : String
  time : Nat
  moves : Nat
deriving DecidableEq

/-- Phase type `GameState` (line 37). -/
inductive GameState where
  | start
  | playing
  | awaitingName
  | won
  | lost
deriving DecidableEq

/-- A card before the shuffle assigns ids: the element shape produced by the
`cardPairs` map in `shuffledCards` (lines 75–80). -/
structure PreCard where
  imageId : Nat
  imageUrl : String
  isFlipped : Bool
  isMatched : Bool
deriving DecidableEq

/-- Definition `requiredImagesCount = (GRID_ROWS * GRID_COLS) / 2` (line 74). -/
def requiredImagesCount : Nat := GRID_ROWS * GRID_COLS / 2

/-- The `cardPairs` array (lines 75–80): one PreCard per pool image taken,
`imageId` = position in the pool, flags false. -/
def cardPairs (imagePaths : List String) : List PreCard :=
  (imagePaths.take requiredImagesCount).enum.map fun p =>
    { imageId := p.1, imageUrl := p.2, isFlipped := false, isMatched := false }

/-- Doubling `[...cardPairs, ...cardPairs]` (line 82): the list handed to the random sort. -/
def deckSource (imagePaths : List String) : List PreCard :=
  cardPairs imagePaths ++ cardPairs imagePaths

/-- The final `.map((card, index) => ({ ...card, id: index }))` (line 84):
ids are positions after the shuffle. -/
def assignIds (l : List PreCard) : List CardState :=
  l.enum.map fun p =>
    { id := p.1, imageId := p.2.imageId, imageUrl := p.2.imageUrl,
      isFlipped := p.2.isFlipped, isMatched := p.2.isMatched }

/-- Generator `shuffledCards` (lines 73–85) applied to the outcome `shuffled` of the
random sort, which is some permutation of `deckSource`. -/
def shuffledCards (shuffled : List PreCard) : List CardState := assignIds shuffled

/-- JS `String.prototype.trim`: strip leading and trailing whitespace.
(Embedded structurally so it evaluates in the kernel.) -/
def jsTrim (s : String) : String :=
  ⟨((s.data.dropWhile Char.isWhitespace).reverse.dropWhile Char.isWhitespace).reverse⟩

/-- The high-score comparator (lines 217–222): ascending time, then ascending
moves; as the total preorder it sorts by. -/
def scoreLe (a b : HighScore) : Prop :=
  a.time < b.time ∨ (a.time = b.time ∧ a.moves ≤ b.moves)

instance : DecidableRel scoreLe := fun a b => by
  unfold scoreLe; infer_instance

instance : IsTrans HighScore scoreLe where
  trans a b c hab hbc := by
    rcases hab with h | ⟨h1, h2⟩ <;> rcases hbc with h' | ⟨h1', h2'⟩ <;>
      simp only [scoreLe] <;> omega

instance : IsTotal HighScore scoreLe where
  total a b := by
    simp only [scoreLe]; omega

/-- Computation `updatedScores` (lines 216–223): append the new score, stable-sort by the
comparator, keep the first five. -/
def recordScore (highScores : List HighScore) (newScore : HighScore) : List HighScore :=
  (List.insertionSort scoreLe (highScores ++ [newScore])).take 5

/-- The load-highscores effect (lines 62–71): `none` = no stored entry,
`some (.error _)` = `JSON.parse` threw (caught and logged), `some (.ok l)` =
parsed successfully.  In the first two cases the state keeps its initial `[]`. -/
def loadHighScores : Option (Except Unit (List HighScore)) → List HighScore
  | none => []
  | some (Except.error _) => []
  | some (Except.ok scores) => scores

/-- The component's state hooks (lines 46–56) plus the `useMemo` deck
(line 73, fixed for the life of the mount), the scheduled-and-unfired
mismatch timeout with its captured card ids (line 122), and the
`localStorage` entry as parsed (line 226). -/
structure AppState where
  gameState : GameState
  cards : List CardState
  flippedCards : List Nat
  mismatchedCards : List Nat
  moves : Nat
  isChecking : Bool
  timeLeft : Nat
  playerName : String
  highScores : List HighScore
  shuffled : List CardState
  pendingResolve : Option (Nat × Nat)
  stored : Option (List HighScore)
deriving DecidableEq

/-- Handler `handleCardClick` (lines 187–198).  The guard short-circuits left to
right; if it reaches `cards[index]` and the index is out of bounds, reading
`.isFlipped` of `undefined` throws a TypeError, embedded as `.error`. -/
def handleCardClick (st : AppState) (index : Nat) : Except Unit AppState :=
  if st.isChecking || st.flippedCards.length == 2 then .ok st
  else
    match st.cards[index]? with
    | none => .error ()
    | some c =>
      if c.isFlipped || c.isMatched then .ok st
      else .ok { st with
        cards := st.cards.set index { c with isFlipped := true },
        flippedCards := st.flippedCards ++ [index] }

/-- The pair-check effect body (lines 98–135).  It returns unless exactly two
indices are flipped; both branches count the move; the match branch marks both
cards and clears immediately; the mismatch branch records the mismatched ids
and schedules the resolution timeout, capturing the two card ids. -/
def checkEffect (st : AppState) : Except Unit AppState :=
  match st.flippedCards with
  | [firstCardIndex, secondCardIndex] =>
    match st.cards[firstCardIndex]?, st.cards[secondCardIndex]? with
    | some firstCard, some secondCard =>
      if firstCard.imageId == secondCard.imageId then
        .ok { st with
          moves := st.moves + 1,
          cards := st.cards.map fun card =>
            if card.id == firstCard.id || card.id == secondCard.id then
              { card with isMatched := true }
            else card,
          flippedCards := [],
          isChecking := false }
      else
        .ok { st with
          moves := st.moves + 1,
          isChecking := true,
          mismatchedCards := [firstCard.id, secondCard.id],
          pendingResolve := some (firstCard.id, secondCard.id) }
    | _, _ => .error ()
  | _ => .ok st

/-- The `setTimeout` callback of the mismatch branch (lines 122–133), firing
the pending resolution if one is scheduled: un-flip the cards whose ids were
captured, clear both lists, end checking. -/
def resolveTimeout (st : AppState) : AppState :=
  match st.pendingResolve with
  | none => st
  | some ids =>
    { st with
      cards := st.cards.map fun card =>
        if card.id == ids.1 || card.id == ids.2 then
          { card with isFlipped := false }
        else card,
      flippedCards := [],
      mismatchedCards := [],
      isChecking := false,
      pendingResolve := none }

/-- The win-detection effect (lines 137–147). -/
def winCheckEffect (st : AppState) : AppState :=
  if 0 < st.cards.length ∧ st.cards.all (fun card => card.isMatched) = true then
    { st with gameState := GameState.awaitingName }
  else st

/-- One interval step of the timer effect (lines 87–96): while playing it
decrements once per second; at zero the effect flips the phase to lost. -/
def timerTick (st : AppState) : AppState :=
  if st.gameState = GameState.playing then
    if st.timeLeft = 0 then { st with gameState := GameState.lost }
    else { st with timeLeft := st.timeLeft - 1 }
  else st

/-- Handler `handleStartGame` (lines 178–185).  Note it copies the memoized deck and
does not touch `isChecking`, `mismatchedCards`, the pending timeout, or the
high scores. -/
def handleStartGame (st : AppState) : AppState :=
  { st with
    cards := st.shuffled,
    gameState := GameState.playing,
    moves := 0,
    flippedCards := [],
    timeLeft := GAME_DURATION,
    playerName := "" }

/-- Handler `handleResetGame` (lines 200–207). -/
def handleResetGame (st : AppState) : AppState :=
  { st with
    gameState := GameState.start,
    cards := [],
    flippedCards := [],
    moves := 0,
    isChecking := false,
    timeLeft := GAME_DURATION }

/-- The name input's onChange (line 275). -/
def setPlayerName (st : AppState) (s : String) : AppState :=
  { st with playerName := s }

/-- Handler `handleNameSubmit` (lines 209–233).  `saveOk` is whether
`localStorage.setItem` succeeds; when it throws, the error is caught and
logged and — because `setHighScores` sits after it inside the `try` — the
in-memory scores are not updated either.  The phase moves to `won` in
either case. -/
def handleNameSubmit (st : AppState) (saveOk : Bool) : AppState :=
  if jsTrim st.playerName = "" then st
  else
    let newScore : HighScore :=
      { name := jsTrim st.playerName, time := GAME_DURATION - st.timeLeft, moves := st.moves }
    let updatedScores := recordScore st.highScores newScore
    if saveOk then
      { st with
        stored := some updatedScores,
        highScores := updatedScores,
        gameState := GameState.won }
    else
      { st with gameState := GameState.won }

instance {ε α : Type} [DecidableEq ε] [DecidableEq α] : DecidableEq (Except ε α)
  | Except.error a, Except.error b =>
    if h : a = b then isTrue (by rw [h]) else isFalse (fun hh => h (Except.error.inj hh))
  | Except.error _, Except.ok _ => isFalse (fun hh => Except.noConfusion hh)
  | Except.ok _, Except.error _ => isFalse (fun hh => Except.noConfusion hh)
  | Except.ok a, Except.ok b =>
    if h : a = b then isTrue (by rw [h]) else isFalse (fun hh => h (Except.ok.inj hh))

/-- The commands and scheduled events the engine processes, one at a time. -/
inductive Event where
  | click (index : Nat)
  | check
  | winCheck
  | resolve
  | tick
  | startGame
  | resetGame
  | setName (s : String)
  | submit (saveOk : Bool)
deriving DecidableEq

/-- One engine step.  A thrown TypeError (`Except.error`) leaves the state
as it was.  The pair-check effect re-runs only when its dependencies
(`flippedCards`, `cards`) change; while a mismatch is pending (`isChecking`)
neither changes, so the effect cannot re-fire then. -/
def step (st : AppState) (e : Event) : AppState :=
  match e with
  | Event.click index =>
    match handleCardClick st index with
    | Except.ok st' => st'
    | Except.error _ => st
  | Event.check =>
    if st.isChecking then st
    else
      match checkEffect st with
      | Except.ok st' => st'
      | Except.error _ => st
  | Event.winCheck => winCheckEffect st
  | Event.resolve => resolveTimeout st
  | Event.tick => timerTick st
  | Event.startGame => handleStartGame st
  | Event.resetGame => handleResetGame st
  | Event.setName s => setPlayerName st s
  | Event.submit saveOk => handleNameSubmit st saveOk

/-- Process a sequence of commands and scheduled events. -/
def run (st : AppState) (es : List Event) : AppState := es.foldl step st

/-- The state right after mount (initial hook values, lines 46–56), given the
memoized deck, the load-effect outcome, and the store's current content. -/
def initialState (shuffled : List CardState)
    (loaded : Option (Except Unit (List HighScore)))
    (stored0 : Option (List HighScore)) : AppState :=
  { gameState := GameState.start,
    cards := [],
    flippedCards := [],
    mismatchedCards := [],
    moves := 0,
    isChecking := false,
    timeLeft := GAME_DURATION,
    playerName := "",
    highScores := loadHighScores loaded,
    shuffled := shuffled,
    pendingResolve := none,
    stored := stored0 }

/-- The deck for the identity outcome of the shuffle. -/
def deck20 : List CardState := shuffledCards (deckSource IMAGE_PATHS)

/-- A concrete mount: identity shuffle, nothing stored. -/
def initSt : AppState := initialState deck20 none none

/-! ### Deck generator facts -/

theorem assignIds_length (l : List PreCard) : (assignIds l).length = l.length := by
  simp [assignIds, List.enum_length]

theorem map_imageId_assignIds (l : List PreCard) :
    (assignIds l).map CardState.imageId = l.map PreCard.imageId := by
  unfold assignIds
  rw [List.map_map,
    show (CardState.imageId ∘ fun p : Nat × PreCard =>
        ({ id := p.1, imageId := p.2.imageId, imageUrl := p.2.imageUrl,
           isFlipped := p.2.isFlipped, isMatched := p.2.isMatched } : CardState))
      = (PreCard.imageId ∘ Prod.snd) from rfl,
    ← List.map_map, List.enum_map_snd]

theorem map_id_assignIds (l : List PreCard) :
    (assignIds l).map CardState.id = List.range l.length := by
  unfold assignIds
  rw [List.map_map,
    show (CardState.id ∘ fun p : Nat × PreCard =>
        ({ id := p.1, imageId := p.2.imageId, imageUrl := p.2.imageUrl,
           isFlipped := p.2.isFlipped, isMatched := p.2.isMatched } : CardState))
      = Prod.fst from rfl,
    List.enum_map_fst]

theorem mem_assignIds {l : List PreCard} {c : CardState} (h : c ∈ assignIds l) :
    ∃ p ∈ l, c.isFlipped = p.isFlipped ∧ c.isMatched = p.isMatched := by
  unfold assignIds at h
  obtain ⟨q, hq, rfl⟩ := List.mem_map.1 h
  have hql : q.2 ∈ l := by
    rw [← List.enum_map_snd l]
    exact List.mem_map_of_mem Prod.snd hq
  exact ⟨q.2, hql, rfl, rfl⟩

/-- C2: every generated deck — for any outcome of the random shuffle — has
length rows×cols = 20; each of the `requiredImagesCount` = 10 imageIds 0..9
appears on exactly two cards and no other imageId appears; all cards start
face-down and unmatched; and ids are the zero-based sequence assigned after
shuffling. -/
theorem deck_wellformed (shuffled : List PreCard)
    (hperm : shuffled.Perm (deckSource IMAGE_PATHS)) :
    (shuffledCards shuffled).length = GRID_ROWS * GRID_COLS ∧
    (∀ k, k < requiredImagesCount →
      ((shuffledCards shuffled).map CardState.imageId).count k = 2) ∧
    (∀ k, requiredImagesCount ≤ k →
      ((shuffledCards shuffled).map CardState.imageId).count k = 0) ∧
    (∀ c ∈ shuffledCards shuffled, c.isFlipped = false ∧ c.isMatched = false) ∧
    (shuffledCards shuffled).map CardState.id = List.range (GRID_ROWS * GRID_COLS) := by
  have hlen : shuffled.length = 20 := by
    rw [hperm.length_eq]; decide
  have hmap : (shuffledCards shuffled).map CardState.imageId = shuffled.map PreCard.imageId :=
    map_imageId_assignIds shuffled
  have hpermIds :
      (shuffled.map PreCard.imageId).Perm ((deckSource IMAGE_PATHS).map PreCard.imageId) :=
    hperm.map _
  refine ⟨?_, ?_, ?_, ?_, ?_⟩
  · rw [shuffledCards, assignIds_length, hlen]; decide
  · intro k hk
    have hk10 : k < 10 := hk
    rw [hmap, hpermIds.count_eq]
    interval_cases k <;> decide
  · intro k hk
    have hk10 : 10 ≤ k := hk
    rw [hmap, hpermIds.count_eq, List.count_eq_zero]
    intro hmem
    have hall : ∀ x ∈ (deckSource IMAGE_PATHS).map PreCard.imageId, x < 10 := by decide
    exact absurd (hall k hmem) (by omega)
  · intro c hc
    obtain ⟨p, hp, hf, hm⟩ := mem_assignIds hc
    have hp' : p ∈ deckSource IMAGE_PATHS := (hperm.mem_iff).1 hp
    have hall : ∀ q ∈ deckSource IMAGE_PATHS, q.isFlipped = false ∧ q.isMatched = false := by
      decide
    obtain ⟨h1, h2⟩ := hall p hp'
    exact ⟨hf.trans h1, hm.trans h2⟩
  · rw [shuffledCards, map_id_assignIds, hlen]; decide

/-- C2 witness: the identity outcome of the shuffle. -/
theorem deck_wellformed_witness :
    (deckSource IMAGE_PATHS).Perm (deckSource IMAGE_PATHS) ∧
    ((shuffledCards (deckSource IMAGE_PATHS)).length = GRID_ROWS * GRID_COLS ∧
     (∀ k, k < requiredImagesCount →
       ((shuffledCards (deckSource IMAGE_PATHS)).map CardState.imageId).count k = 2) ∧
     (∀ k, requiredImagesCount ≤ k →
       ((shuffledCards (deckSource IMAGE_PATHS)).map CardState.imageId).count k = 0) ∧
     (∀ c ∈ shuffledCards (deckSource IMAGE_PATHS),
       c.isFlipped = false ∧ c.isMatched = false) ∧
     (shuffledCards (deckSource IMAGE_PATHS)).map CardState.id =
       List.range (GRID_ROWS * GRID_COLS)) :=
  ⟨List.Perm.refl _, deck_wellformed _ (List.Perm.refl _)⟩

/-! ### Pool smaller than the required pairs (C8) -/

/-- A pool of only nine images, one short of `requiredImagesCount`. -/
def pool9 : List String := IMAGE_PATHS.take 9

def deck18 : List CardState := shuffledCards (deckSource pool9)

/-- C8 counterexample: with a 9-image pool (smaller than pairsNeeded = 10),
deck construction does not fail — `slice` silently truncates, an 18-card deck
is built, and the session starts normally. -/
theorem small_pool_truncates_cex :
    deck18.length = 18 ∧
    (handleStartGame (initialState deck18 none none)).gameState = GameState.playing ∧
    (handleStartGame (initialState deck18 none none)).cards = deck18 := by
  decide

/-- C8 amended: if the image pool is smaller than pairsNeeded, deck
construction silently truncates — the deck has 2·(pool size) cards — and the
engine still starts a session; no configuration failure is raised. -/
theorem small_pool_truncates (imagePaths : List String) (shuffled : List PreCard)
    (hperm : shuffled.Perm (deckSource imagePaths)) :
    (shuffledCards shuffled).length = 2 * min requiredImagesCount imagePaths.length ∧
    (handleStartGame (initialState (shuffledCards shuffled) none none)).gameState =
      GameState.playing := by
  constructor
  · rw [shuffledCards, assignIds_length, hperm.length_eq]
    simp [deckSource, cardPairs, List.enum_length, List.length_take]
    omega
  · rfl

/-- C8 amended witness: the nine-image pool, identity shuffle. -/
theorem small_pool_truncates_witness :
    (deckSource pool9).Perm (deckSource pool9) ∧
    (shuffledCards (deckSource pool9)).length = 2 * min requiredImagesCount pool9.length ∧
    (handleStartGame (initialState (shuffledCards (deckSource pool9)) none none)).gameState =
      GameState.playing :=
  ⟨List.Perm.refl _, small_pool_truncates pool9 _ (List.Perm.refl _)⟩

/-! ### Invalid commands (C5) -/

/-- The session after the timer has fully expired: 180 ticks count the 180 s
down to zero and the 181st flips the phase to lost; the board is retained
until a reset. -/
def exLost : AppState :=
  run initSt ([Event.startGame] ++ (List.range 181).map (fun _ => Event.tick))

/-- C5 counterexample: invalid flipCard commands are not all silent no-ops.
First, an out-of-bounds index is not guarded: in the freshly started 20-card
session (nothing checking, nothing flipped), index 20 reaches
`cards[20].isFlipped` on `undefined` and throws a TypeError.  Second, the
handler checks no phase: in the reachable lost phase (timer expired, board
retained), an out-of-phase flip on card 0 is accepted and mutates the
Session, setting flippedCards to [0]. -/
theorem invalid_flip_not_ignored_cex :
    handleCardClick (step initSt Event.startGame) 20 = Except.error () ∧
    exLost.gameState = GameState.lost ∧
    exLost.flippedCards = [] ∧
    (step exLost (Event.click 0)).flippedCards = [0] ∧
    step exLost (Event.click 0) ≠ exLost := by
  set_option maxRecDepth 8000 in decide

/-- C5 amended: a flipCard blocked by the handler's own guards — issued while
checking, or while two cards are already up, or aimed at an in-bounds card
that is already flipped or matched — and a submitName whose name trims to
empty, are silent no-ops that leave the state unchanged.  But the handler
checks neither bounds nor phase: an out-of-bounds index that passes the first
two guards raises a TypeError instead of being ignored, and whenever the
guards pass, the flip mutates the Session regardless of the phase — so an
out-of-phase flip on an available card (e.g. in the lost phase) is not
ignored either. -/
theorem invalid_commands_noop (st : AppState) :
    (∀ index, st.isChecking = true → handleCardClick st index = Except.ok st) ∧
    (∀ index, st.flippedCards.length = 2 → handleCardClick st index = Except.ok st) ∧
    (∀ index c, st.cards[index]? = some c → (c.isFlipped = true ∨ c.isMatched = true) →
      handleCardClick st index = Except.ok st) ∧
    (∀ saveOk, jsTrim st.playerName = "" → handleNameSubmit st saveOk = st) ∧
    (∀ index, st.isChecking = false → st.flippedCards.length ≠ 2 →
      st.cards[index]? = none → handleCardClick st index = Except.error ()) ∧
    (∀ index c, st.isChecking = false → st.flippedCards.length ≠ 2 →
      st.cards[index]? = some c → c.isFlipped = false → c.isMatched = false →
      handleCardClick st index = Except.ok { st with
        cards := st.cards.set index { c with isFlipped := true },
        flippedCards := st.flippedCards ++ [index] }) := by
  refine ⟨?_, ?_, ?_, ?_, ?_, ?_⟩
  · intro index h
    simp [handleCardClick, h]
  · intro index h
    simp [handleCardClick, h]
  · intro index c hc hfm
    unfold handleCardClick
    rcases hg : (st.isChecking || st.flippedCards.length == 2) with _ | _
    · rw [if_neg (by simp [hg])]
      rw [hc]
      rcases hfm with h' | h' <;> simp [h']
    · rw [if_pos (by simp [hg])]
  · intro saveOk h
    simp [handleNameSubmit, h]
  · intro index h1 h2 hc
    unfold handleCardClick
    rw [if_neg (by simp [h1, h2]), hc]
  · intro index c h1 h2 hc hf hm
    unfold handleCardClick
    rw [if_neg (by simp [h1, h2]), hc]
    simp [hf, hm]

def exChecking : AppState := { initSt with isChecking := true }

def exTwoUp : AppState := { initSt with flippedCards := [0, 1] }

def exOneFlipped : AppState := run initSt [Event.startGame, Event.click 0]

def exMatched : AppState :=
  run initSt [Event.startGame, Event.click 0, Event.click 10, Event.check]

def exSpaces : AppState := { initSt with playerName := "   " }

set_option maxRecDepth 8000 in
/-- C5 amended witness: each no-op branch at a concrete state, the throwing
branch on the empty initial card list, and the phase-blind mutating flip in
the reachable lost phase. -/
theorem invalid_commands_noop_witness :
    handleCardClick exChecking 0 = Except.ok exChecking ∧
    handleCardClick exTwoUp 0 = Except.ok exTwoUp ∧
    handleCardClick exOneFlipped 0 = Except.ok exOneFlipped ∧
    handleCardClick exMatched 0 = Except.ok exMatched ∧
    handleNameSubmit exSpaces true = exSpaces ∧
    handleCardClick initSt 0 = Except.error () ∧
    handleCardClick exLost 0 = Except.ok { exLost with
      cards := exLost.cards.set 0 ⟨0, 0, "/images/image-1.png", true, false⟩,
      flippedCards := [0] } :=
  ⟨(invalid_commands_noop exChecking).1 0 rfl,
   (invalid_commands_noop exTwoUp).2.1 0 rfl,
   (invalid_commands_noop exOneFlipped).2.2.1 0
     ⟨0, 0, "/images/image-1.png", true, false⟩ (by decide) (Or.inl rfl),
   (invalid_commands_noop exMatched).2.2.1 0
     ⟨0, 0, "/images/image-1.png", true, true⟩ (by decide) (Or.inr rfl),
   (invalid_commands_noop exSpaces).2.2.2.1 true (by decide),
   (invalid_commands_noop initSt).2.2.2.2.1 0 rfl (by decide) rfl,
   (invalid_commands_noop exLost).2.2.2.2.2 0
     ⟨0, 0, "/images/image-1.png", false, false⟩ (by decide) (by decide) (by decide)
     rfl rfl⟩

/-! ### Mismatch resolution (C3) -/

/-- C3: when the pair-check sees two cards with different imageIds, the engine
enters the resolving sub-state (`isChecking`), captures both ids for the
scheduled resolution, every flipCard call during that sub-state is a no-op,
and when the scheduled resolution fires, both cards return to face-down,
`flippedCards` becomes empty, and the resolving sub-state ends. -/
theorem mismatch_resolution (st st' : AppState) (i j : Nat) (first second : CardState)
    (hnc : st.isChecking = false)
    (hf : st.flippedCards = [i, j])
    (hi : st.cards[i]? = some first)
    (hj : st.cards[j]? = some second)
    (hne : first.imageId ≠ second.imageId)
    (hstep : step st Event.check = st') :
    st'.isChecking = true ∧
    st'.pendingResolve = some (first.id, second.id) ∧
    st'.cards = st.cards ∧
    (∀ k, handleCardClick st' k = Except.ok st') ∧
    (resolveTimeout st').isChecking = false ∧
    (resolveTimeout st').flippedCards = [] ∧
    (resolveTimeout st').pendingResolve = none ∧
    (resolveTimeout st').cards[i]? = some { first with isFlipped := false } ∧
    (resolveTimeout st').cards[j]? = some { second with isFlipped := false } := by
  have hbeq : (first.imageId == second.imageId) = false := by
    simp [hne]
  have hck : checkEffect st = Except.ok { st with
      moves := st.moves + 1,
      isChecking := true,
      mismatchedCards := [first.id, second.id],
      pendingResolve := some (first.id, second.id) } := by
    simp [checkEffect, hf, hi, hj, hbeq]
  have hst' : st' = { st with
      moves := st.moves + 1,
      isChecking := true,
      mismatchedCards := [first.id, second.id],
      pendingResolve := some (first.id, second.id) } := by
    rw [← hstep]
    simp [step, hnc, hck]
  subst hst'
  refine ⟨rfl, rfl, rfl, ?_, ?_, ?_, ?_, ?_, ?_⟩
  · intro k
    simp [handleCardClick]
  · simp [resolveTimeout]
  · simp [resolveTimeout]
  · simp [resolveTimeout]
  · simp only [resolveTimeout, List.getElem?_map, hi, Option.map_some]
    simp
  · simp only [resolveTimeout, List.getElem?_map, hj, Option.map_some]
    simp

def exMismatch : AppState := run initSt [Event.startGame, Event.click 0, Event.click 1]

/-- C3 witness: the first two cards of the identity-shuffled deck mismatch. -/
theorem mismatch_resolution_witness :
    (step exMismatch Event.check).isChecking = true ∧
    (step exMismatch Event.check).pendingResolve = some (0, 1) ∧
    (step exMismatch Event.check).cards = exMismatch.cards ∧
    (∀ k, handleCardClick (step exMismatch Event.check) k =
      Except.ok (step exMismatch Event.check)) ∧
    (resolveTimeout (step exMismatch Event.check)).isChecking = false ∧
    (resolveTimeout (step exMismatch Event.check)).flippedCards = [] ∧
    (resolveTimeout (step exMismatch Event.check)).pendingResolve = none ∧
    (resolveTimeout (step exMismatch Event.check)).cards[0]? =
      some ⟨0, 0, "/images/image-1.png", false, false⟩ ∧
    (resolveTimeout (step exMismatch Event.check)).cards[1]? =
      some ⟨1, 1, "/images/image-2.png", false, false⟩ :=
  mismatch_resolution exMismatch (step exMismatch Event.check) 0 1
    ⟨0, 0, "/images/image-1.png", true, false⟩
    ⟨1, 1, "/images/image-2.png", true, false⟩
    (by decide) (by decide) (by decide) (by decide) (by decide) rfl

/-! ### Flip-machine invariants (C1) -/

theorem handleCardClick_matched (st : AppState) (i : Nat) (c : CardState)
    (hc : st.cards[i]? = some c) (hm : c.isMatched = true) :
    handleCardClick st i = Except.ok st := by
  unfold handleCardClick
  rcases hg : (st.isChecking || st.flippedCards.length == 2) with _ | _
  · rw [if_neg (by simp [hg]), hc]
    simp [hm]
  · rw [if_pos (by simp [hg])]

theorem handleCardClick_ok_flipped {st : AppState} {i : Nat} {st' : AppState}
    (hok : handleCardClick st i = Except.ok st') :
    st'.flippedCards = st.flippedCards ∨
    (st.flippedCards.length ≠ 2 ∧ st'.flippedCards = st.flippedCards ++ [i]) := by
  unfold handleCardClick at hok
  split at hok
  · exact Or.inl (by cases hok; rfl)
  next hcond =>
    split at hok
    · exact absurd hok (by simp)
    next c hc =>
      split at hok
      · exact Or.inl (by cases hok; rfl)
      · refine Or.inr ⟨?_, by cases hok; rfl⟩
        intro hlen
        exact hcond (by simp [hlen])

theorem handleCardClick_ok_cards {st : AppState} {i : Nat} {st' : AppState}
    (hok : handleCardClick st i = Except.ok st') :
    st'.cards = st.cards ∨
    (∃ c0, st.cards[i]? = some c0 ∧ c0.isFlipped = false ∧ c0.isMatched = false ∧
      st'.cards = st.cards.set i { c0 with isFlipped := true }) := by
  unfold handleCardClick at hok
  split at hok
  · exact Or.inl (by cases hok; rfl)
  next hcond =>
    split at hok
    · exact absurd hok (by simp)
    next c hc =>
      split at hok
      next hfm =>
        exact Or.inl (by cases hok; rfl)
      next hfm =>
        rcases hff : c.isFlipped with _ | _
        · rcases hmm : c.isMatched with _ | _
          · exact Or.inr ⟨c, hc, hff, hmm, by cases hok; rfl⟩
          · exact absurd (by simp [hff, hmm]) hfm
        · exact absurd (by simp [hff]) hfm

theorem checkEffect_ok_flipped {st st' : AppState} (hok : checkEffect st = Except.ok st') :
    st'.flippedCards = [] ∨ st'.flippedCards = st.flippedCards := by
  unfold checkEffect at hok
  split at hok
  · split at hok
    · split at hok
      · exact Or.inl (by cases hok; rfl)
      · exact Or.inr (by cases hok; rfl)
    · exact absurd hok (by simp)
  · exact Or.inr (by cases hok; rfl)

theorem checkEffect_ok_cards {st st' : AppState} (hok : checkEffect st = Except.ok st')
    {k : Nat} {c : CardState} (hc : st.cards[k]? = some c) (hm : c.isMatched = true) :
    ∃ c', st'.cards[k]? = some c' ∧ c'.isMatched = true := by
  unfold checkEffect at hok
  split at hok
  · split at hok
    · split at hok
      · cases hok
        refine ⟨_, by rw [List.getElem?_map, hc]; rfl, ?_⟩
        dsimp only
        split <;> simp [hm]
      · cases hok
        exact ⟨c, hc, hm⟩
    · exact absurd hok (by simp)
  · exact ⟨c, by cases hok; exact hc, hm⟩

theorem step_flipped_le (st : AppState) (e : Event)
    (h : st.flippedCards.length ≤ 2) : (step st e).flippedCards.length ≤ 2 := by
  cases e with
  | click index =>
    simp only [step]
    cases hh : handleCardClick st index with
    | error err => exact h
    | ok st' =>
      rcases handleCardClick_ok_flipped hh with h1 | ⟨h2, h3⟩
      · simpa [h1] using h
      · simp only [h3, List.length_append, List.length_cons, List.length_nil]
        omega
  | check =>
    simp only [step]
    split
    · exact h
    cases hh : checkEffect st with
    | error err => exact h
    | ok st' =>
      rcases checkEffect_ok_flipped hh with h1 | h1
      · simp [h1]
      · simpa [h1] using h
  | winCheck =>
    simp only [step, winCheckEffect]
    split <;> exact h
  | resolve =>
    simp only [step, resolveTimeout]
    split
    · exact h
    · simp
  | tick =>
    simp only [step, timerTick]
    split
    · split <;> exact h
    · exact h
  | startGame => simp [step, handleStartGame]
  | resetGame => simp [step, handleResetGame]
  | setName s => exact h
  | submit saveOk =>
    simp only [step, handleNameSubmit]
    split
    · exact h
    · split <;> exact h

theorem step_matched_persist {st : AppState} {e : Event} {k : Nat} {c : CardState}
    (hs : e ≠ Event.startGame) (hr : e ≠ Event.resetGame)
    (hc : st.cards[k]? = some c) (hm : c.isMatched = true) :
    ∃ c', (step st e).cards[k]? = some c' ∧ c'.isMatched = true := by
  cases e with
  | click index =>
    simp only [step]
    cases hh : handleCardClick st index with
    | error err => exact ⟨c, hc, hm⟩
    | ok st' =>
      rcases handleCardClick_ok_cards hh with h1 | ⟨c0, hc0, hf0, hm0, h1⟩
      · exact ⟨c, by rw [h1]; exact hc, hm⟩
      · rcases eq_or_ne index k with rfl | hne
        · rw [hc] at hc0
          cases hc0
          rw [hm] at hm0
          cases hm0
        · refine ⟨c, ?_, hm⟩
          rw [h1, List.getElem?_set]
          simp [hne, hc]
  | check =>
    simp only [step]
    split
    · exact ⟨c, hc, hm⟩
    cases hh : checkEffect st with
    | error err => exact ⟨c, hc, hm⟩
    | ok st' => exact checkEffect_ok_cards hh hc hm
  | winCheck =>
    simp only [step, winCheckEffect]
    split <;> exact ⟨c, hc, hm⟩
  | resolve =>
    simp only [step, resolveTimeout]
    split
    · exact ⟨c, hc, hm⟩
    · refine ⟨_, by rw [List.getElem?_map, hc]; rfl, ?_⟩
      dsimp only
      split <;> simp [hm]
  | tick =>
    simp only [step, timerTick]
    split
    · split <;> exact ⟨c, hc, hm⟩
    · exact ⟨c, hc, hm⟩
  | startGame => exact absurd rfl hs
  | resetGame => exact absurd rfl hr
  | setName s => exact ⟨c, hc, hm⟩
  | submit saveOk =>
    simp only [step, handleNameSubmit]
    split
    · exact ⟨c, hc, hm⟩
    · split <;> exact ⟨c, hc, hm⟩

/-- C1: over any sequence of commands and events, `flippedCards` never holds
more than two indices; and — as long as the session is not replaced by a
start or reset — a card once matched stays matched and any flipCard call on
it is a no-op. -/
theorem flip_invariants (st : AppState) (es : List Event)
    (hlen : st.flippedCards.length ≤ 2) :
    (run st es).flippedCards.length ≤ 2 ∧
    (Event.startGame ∉ es → Event.resetGame ∉ es →
      ∀ i c, st.cards[i]? = some c → c.isMatched = true →
        ∃ c', (run st es).cards[i]? = some c' ∧ c'.isMatched = true ∧
          handleCardClick (run st es) i = Except.ok (run st es)) := by
  induction es generalizing st with
  | nil =>
    exact ⟨hlen, fun _ _ i c hc hm => ⟨c, hc, hm, handleCardClick_matched _ _ _ hc hm⟩⟩
  | cons e es ih =>
    have h1 := step_flipped_le st e hlen
    obtain ⟨ha, hb⟩ := ih (step st e) h1
    refine ⟨ha, ?_⟩
    intro hs hr i c hc hm
    rw [List.mem_cons] at hs hr
    push_neg at hs hr
    obtain ⟨c', hc', hm'⟩ :=
      step_matched_persist (fun h => hs.1 h.symm) (fun h => hr.1 h.symm) hc hm
    exact hb hs.2 hr.2 i c' hc' hm'

/-- C1 witness: from the session where cards 0 and 10 are matched, two more
clicks later the invariant and the no-reflip property hold at card 0. -/
theorem flip_invariants_witness :
    (run exMatched [Event.click 1, Event.click 2]).flippedCards.length ≤ 2 ∧
    (∃ c', (run exMatched [Event.click 1, Event.click 2]).cards[0]? = some c' ∧
      c'.isMatched = true ∧
      handleCardClick (run exMatched [Event.click 1, Event.click 2]) 0 =
        Except.ok (run exMatched [Event.click 1, Event.click 2])) :=
  ⟨(flip_invariants exMatched [Event.click 1, Event.click 2] (by decide)).1,
   (flip_invariants exMatched [Event.click 1, Event.click 2] (by decide)).2
     (by decide) (by decide) 0 ⟨0, 0, "/images/image-1.png", true, true⟩ (by decide) rfl⟩

/-! ### Frame facts about `step` -/

theorem handleCardClick_ok_frame {st st' : AppState} {i : Nat}
    (hok : handleCardClick st i = Except.ok st') :
    st'.shuffled = st.shuffled ∧ st'.highScores = st.highScores ∧ st'.stored = st.stored := by
  unfold handleCardClick at hok
  split at hok
  · cases hok; exact ⟨rfl, rfl, rfl⟩
  · split at hok
    · exact absurd hok (by simp)
    · split at hok <;> (cases hok; exact ⟨rfl, rfl, rfl⟩)

theorem checkEffect_ok_frame {st st' : AppState}
    (hok : checkEffect st = Except.ok st') :
    st'.shuffled = st.shuffled ∧ st'.highScores = st.highScores ∧ st'.stored = st.stored := by
  unfold checkEffect at hok
  split at hok
  · split at hok
    · split at hok <;> (cases hok; exact ⟨rfl, rfl, rfl⟩)
    · exact absurd hok (by simp)
  · cases hok; exact ⟨rfl, rfl, rfl⟩

theorem step_shuffled (st : AppState) (e : Event) : (step st e).shuffled = st.shuffled := by
  cases e with
  | click index =>
    simp only [step]
    cases hh : handleCardClick st index with
    | error err => rfl
    | ok st' => exact (handleCardClick_ok_frame hh).1
  | check =>
    simp only [step]
    split
    · rfl
    cases hh : checkEffect st with
    | error err => rfl
    | ok st' => exact (checkEffect_ok_frame hh).1
  | winCheck =>
    simp only [step, winCheckEffect]
    split <;> rfl
  | resolve =>
    simp only [step, resolveTimeout]
    split <;> rfl
  | tick =>
    simp only [step, timerTick]
    split
    · split <;> rfl
    · rfl
  | startGame => rfl
  | resetGame => rfl
  | setName s => rfl
  | submit saveOk =>
    simp only [step, handleNameSubmit]
    split
    · rfl
    · split <;> rfl

theorem step_scores_frame (st : AppState) (e : Event) (h : ∀ b, e ≠ Event.submit b) :
    (step st e).highScores = st.highScores ∧ (step st e).stored = st.stored := by
  cases e with
  | click index =>
    simp only [step]
    cases hh : handleCardClick st index with
    | error err => exact ⟨rfl, rfl⟩
    | ok st' => exact ⟨(handleCardClick_ok_frame hh).2.1, (handleCardClick_ok_frame hh).2.2⟩
  | check =>
    simp only [step]
    split
    · exact ⟨rfl, rfl⟩
    cases hh : checkEffect st with
    | error err => exact ⟨rfl, rfl⟩
    | ok st' => exact ⟨(checkEffect_ok_frame hh).2.1, (checkEffect_ok_frame hh).2.2⟩
  | winCheck =>
    simp only [step, winCheckEffect]
    split <;> exact ⟨rfl, rfl⟩
  | resolve =>
    simp only [step, resolveTimeout]
    split <;> exact ⟨rfl, rfl⟩
  | tick =>
    simp only [step, timerTick]
    split
    · split <;> exact ⟨rfl, rfl⟩
    · exact ⟨rfl, rfl⟩
  | startGame => exact ⟨rfl, rfl⟩
  | resetGame => exact ⟨rfl, rfl⟩
  | setName s => exact ⟨rfl, rfl⟩
  | submit saveOk => exact absurd rfl (h saveOk)

/-! ### Deck generation happens once per mount (C7) -/

/-- C7 counterexample: two sessions started in the same mount receive the
identical card arrangement — the second `start` reuses the deck memoized at
mount time instead of invoking a fresh shuffle. -/
theorem deck_reused_cex :
    (run initSt [Event.startGame, Event.resetGame, Event.startGame]).cards =
      (run initSt [Event.startGame]).cards ∧
    (run initSt [Event.startGame]).cards = deck20 := by decide

/-- C7 amended: the deck is built by `useMemo` once per mount; no event ever
changes the memoized deck, and every `start` — whenever it happens — installs
that same memoized arrangement as the session's cards. -/
theorem deck_once_per_mount (st : AppState) (es : List Event) :
    (run st es).shuffled = st.shuffled ∧
    (step (run st es) Event.startGame).cards = st.shuffled := by
  have h : (run st es).shuffled = st.shuffled := by
    induction es generalizing st with
    | nil => rfl
    | cons e es ih => exact (ih (step st e)).trans (step_shuffled st e)
  exact ⟨h, h⟩

/-! ### Stale resolution callback (C6) -/

def exStale : AppState := run initSt
  [Event.startGame, Event.click 0, Event.click 1, Event.check,
   Event.resetGame, Event.startGame, Event.click 0]

/-- C6 counterexample: the resolution callback scheduled by the first
session's mismatch fires after a reset and a new start; with card 0 of the
new session freshly flipped, it un-flips that card and empties the new
session's flippedCards — it mutates a Session other than the one in which it
was scheduled, with no staleness detection. -/
theorem stale_callback_mutates_cex :
    exStale.pendingResolve = some (0, 1) ∧
    exStale.flippedCards = [0] ∧
    (exStale.cards[0]?).map CardState.isFlipped = some true ∧
    (resolveTimeout exStale).flippedCards = [] ∧
    ((resolveTimeout exStale).cards[0]?).map CardState.isFlipped = some false := by
  decide

/-- C6 amended: the callback performs no staleness check; after a `reset()`
with no new session started it happens to leave the cards, the flipped list
and the resolving flag unchanged, because reset has already emptied them —
but once a new session starts, it can mutate that session. -/
theorem stale_after_reset_noop (st : AppState) :
    (resolveTimeout (handleResetGame st)).cards = (handleResetGame st).cards ∧
    (resolveTimeout (handleResetGame st)).flippedCards = (handleResetGame st).flippedCards ∧
    (resolveTimeout (handleResetGame st)).isChecking = (handleResetGame st).isChecking := by
  unfold resolveTimeout handleResetGame
  split
  · exact ⟨rfl, rfl, rfl⟩
  · exact ⟨rfl, rfl, rfl⟩

/-! ### Start/reset do not touch the ledger (C10) -/

/-- C10: every event other than submitName leaves the in-memory ledger and its
persisted copy unchanged; start and reset in particular reassign all the
session fields (cards, flippedCards, moves, timeLeft, phase) while the ledger
and store stay as they were. -/
theorem ledger_frame (st : AppState) (e : Event) :
    ((∀ b, e ≠ Event.submit b) →
      (step st e).highScores = st.highScores ∧ (step st e).stored = st.stored) ∧
    (handleStartGame st).highScores = st.highScores ∧
    (handleStartGame st).stored = st.stored ∧
    (handleStartGame st).cards = st.shuffled ∧
    (handleStartGame st).flippedCards = [] ∧
    (handleStartGame st).moves = 0 ∧
    (handleStartGame st).timeLeft = GAME_DURATION ∧
    (handleStartGame st).gameState = GameState.playing ∧
    (handleResetGame st).highScores = st.highScores ∧
    (handleResetGame st).stored = st.stored ∧
    (handleResetGame st).cards = [] ∧
    (handleResetGame st).flippedCards = [] ∧
    (handleResetGame st).moves = 0 ∧
    (handleResetGame st).timeLeft = GAME_DURATION ∧
    (handleResetGame st).gameState = GameState.start :=
  ⟨step_scores_frame st e,
   rfl, rfl, rfl, rfl, rfl, rfl, rfl, rfl, rfl, rfl, rfl, rfl, rfl, rfl⟩

/-- C10 witness: a tick at the concrete mount state leaves ledger and store
untouched. -/
theorem ledger_frame_witness :
    (step initSt Event.tick).highScores = initSt.highScores ∧
    (step initSt Event.tick).stored = initSt.stored :=
  (ledger_frame initSt Event.tick).1 (fun _ h => Event.noConfusion h)

/-! ### Persistence failures (C9) -/

/-- The ten match rounds of a winning game on the identity-shuffled deck:
positions k and k+10 always carry the same image. -/
def pairEvents : List Event :=
  ((List.range 10).map fun k => [Event.click k, Event.click (k + 10), Event.check]).flatten

/-- A complete winning session: start, 42 seconds pass, ten clean matches,
win detection, then the player types "Ana". -/
def winEvents : List Event :=
  [Event.startGame] ++ (List.range 42).map (fun _ => Event.tick) ++ pairEvents ++
    [Event.winCheck, Event.setName "Ana"]

def exAwait : AppState := run initSt winEvents

/-- C9 counterexample: in the reachable awaiting-name state (win in 42 s and
10 moves, name "Ana"), a failing save is swallowed and the phase still moves
to won — but the in-memory ledger stays empty: the entry just recorded is
lost, so the in-memory ledger does not retain it. -/
theorem save_failure_drops_entry_cex :
    exAwait.gameState = GameState.awaitingName ∧
    exAwait.highScores = [] ∧
    jsTrim exAwait.playerName = "Ana" ∧
    GAME_DURATION - exAwait.timeLeft = 42 ∧
    exAwait.moves = 10 ∧
    (handleNameSubmit exAwait false).gameState = GameState.won ∧
    (handleNameSubmit exAwait false).highScores = [] ∧
    (handleNameSubmit exAwait false).stored = none := by
  set_option maxRecDepth 4000 in decide

/-- C9 amended: an absent or corrupt stored ledger is tolerated and yields an
empty in-memory ledger; a failing save during record is non-fatal (the game
still finishes, phase → won), but the in-memory ledger is left at its
pre-record value — the entry just recorded is dropped, because the in-memory
update is sequenced after the store write inside the same try block.  A
successful save updates both the ledger and the store. -/
theorem persistence_failures (st : AppState) :
    loadHighScores none = [] ∧
    loadHighScores (some (Except.error ())) = [] ∧
    (jsTrim st.playerName ≠ "" →
      (handleNameSubmit st false).highScores = st.highScores ∧
      (handleNameSubmit st false).stored = st.stored ∧
      (handleNameSubmit st false).gameState = GameState.won) ∧
    (jsTrim st.playerName ≠ "" →
      (handleNameSubmit st true).highScores =
        recordScore st.highScores
          ⟨jsTrim st.playerName, GAME_DURATION - st.timeLeft, st.moves⟩ ∧
      (handleNameSubmit st true).stored =
        some (recordScore st.highScores
          ⟨jsTrim st.playerName, GAME_DURATION - st.timeLeft, st.moves⟩)) := by
  refine ⟨rfl, rfl, ?_, ?_⟩
  · intro h
    unfold handleNameSubmit
    rw [if_neg h]
    exact ⟨rfl, rfl, rfl⟩
  · intro h
    unfold handleNameSubmit
    rw [if_neg h]
    exact ⟨rfl, rfl⟩

/-- C9 amended witness: the same reachable awaiting-name state. -/
theorem persistence_failures_witness :
    loadHighScores none = [] ∧
    (handleNameSubmit exAwait false).highScores = exAwait.highScores ∧
    (handleNameSubmit exAwait false).gameState = GameState.won ∧
    (handleNameSubmit exAwait true).highScores =
      recordScore exAwait.highScores
        ⟨jsTrim exAwait.playerName, GAME_DURATION - exAwait.timeLeft, exAwait.moves⟩ :=
  ⟨(persistence_failures exAwait).1,
   ((persistence_failures exAwait).2.2.1 (by decide)).1,
   ((persistence_failures exAwait).2.2.1 (by decide)).2.2,
   ((persistence_failures exAwait).2.2.2 (by decide)).1⟩

/-! ### The ledger keeps exactly the best five (C4) -/

theorem scoreLe_trans {a b c : HighScore} (hab : scoreLe a b) (hbc : scoreLe b c) :
    scoreLe a c := Trans.trans hab hbc

theorem recordScore_inv {rec led : List HighScore} (e : HighScore)
    (h1 : List.Pairwise scoreLe led)
    (h2 : led.length = min 5 rec.length)
    (h3 : led.Subperm rec)
    (h4 : ∀ x ∈ rec, x ∈ led ∨ ∀ f ∈ led, scoreLe f x) :
    List.Pairwise scoreLe (recordScore led e) ∧
    (recordScore led e).length = min 5 (rec ++ [e]).length ∧
    (recordScore led e).Subperm (rec ++ [e]) ∧
    (∀ x ∈ rec ++ [e], x ∈ recordScore led e ∨ ∀ f ∈ recordScore led e, scoreLe f x) := by
  have hsort : List.Pairwise scoreLe (List.insertionSort scoreLe (led ++ [e])) :=
    List.sorted_insertionSort scoreLe (led ++ [e])
  have hperm : (List.insertionSort scoreLe (led ++ [e])).Perm (led ++ [e]) :=
    List.perm_insertionSort scoreLe (led ++ [e])
  have hslen : (List.insertionSort scoreLe (led ++ [e])).length = led.length + 1 := by
    rw [hperm.length_eq, List.length_append, List.length_cons, List.length_nil]
  have htds : ∀ f ∈ (List.insertionSort scoreLe (led ++ [e])).take 5,
      ∀ g ∈ (List.insertionSort scoreLe (led ++ [e])).drop 5, scoreLe f g := by
    have hp : List.Pairwise scoreLe
        ((List.insertionSort scoreLe (led ++ [e])).take 5 ++
          (List.insertionSort scoreLe (led ++ [e])).drop 5) := by
      rw [List.take_append_drop]
      exact hsort
    exact fun f hf g hg => (List.pairwise_append.1 hp).2.2 f hf g hg
  have hmem_split : ∀ x ∈ List.insertionSort scoreLe (led ++ [e]),
      x ∈ (List.insertionSort scoreLe (led ++ [e])).take 5 ∨
      x ∈ (List.insertionSort scoreLe (led ++ [e])).drop 5 := by
    intro x hx
    rw [← List.take_append_drop 5 (List.insertionSort scoreLe (led ++ [e]))] at hx
    exact List.mem_append.1 hx
  refine ⟨?_, ?_, ?_, ?_⟩
  · exact List.Pairwise.sublist (List.take_sublist 5 _) hsort
  · rw [recordScore, List.length_take, hslen, List.length_append, h2]
    simp only [List.length_cons, List.length_nil]
    omega
  · exact ((List.take_sublist 5 _).subperm.trans hperm.subperm).trans
      ((List.subperm_append_right [e]).mpr h3)
  · intro x hx
    rcases List.mem_append.1 hx with hxr | hxe
    · by_cases hxled : x ∈ led
      · rcases hmem_split x (hperm.mem_iff.2 (List.mem_append_left _ hxled)) with h | h
        · exact Or.inl h
        · exact Or.inr (fun f hf => htds f hf x h)
      · have hxdom : ∀ f ∈ led, scoreLe f x := (h4 x hxr).resolve_left hxled
        refine Or.inr (fun f hf => ?_)
        have hfle : f ∈ led ++ [e] := hperm.mem_iff.1 (List.mem_of_mem_take hf)
        rcases List.mem_append.1 hfle with hfl | hfe
        · exact hxdom f hfl
        · have hfeq : f = e := by simpa using hfe
          subst hfeq
          by_cases hel : f ∈ led
          · exact hxdom f hel
          · have hrecbig : 5 < rec.length := by
              by_contra hle
              push_neg at hle
              have hlenled : led.length = rec.length := by omega
              have hpermled : led.Perm rec :=
                h3.perm_of_length_le (le_of_eq hlenled.symm)
              exact hxled (hpermled.mem_iff.2 hxr)
            have hled5 : led.length = 5 := by omega
            have hdlen : ((List.insertionSort scoreLe (led ++ [f])).drop 5).length = 1 := by
              rw [List.length_drop, hslen, hled5]
            obtain ⟨g, hg⟩ : ∃ g,
                (List.insertionSort scoreLe (led ++ [f])).drop 5 = [g] := by
              rcases hd : (List.insertionSort scoreLe (led ++ [f])).drop 5 with _ | ⟨g, gs⟩
              · rw [hd] at hdlen; simp at hdlen
              · rw [hd] at hdlen
                simp only [List.length_cons] at hdlen
                have : gs = [] := List.length_eq_zero.1 (by omega)
                exact ⟨g, by rw [this]⟩
            have hgmem : g ∈ List.insertionSort scoreLe (led ++ [f]) := by
              have : g ∈ (List.insertionSort scoreLe (led ++ [f])).drop 5 := by
                rw [hg]; exact List.mem_singleton_self g
              exact List.mem_of_mem_drop this
            rcases List.mem_append.1 (hperm.mem_iff.1 hgmem) with hgl | hge
            · exact scoreLe_trans (htds f hf g (by rw [hg]; exact List.mem_singleton_self g))
                (hxdom g hgl)
            · have hgeq : g = f := by simpa using hge
              subst hgeq
              have hcount1 : (led ++ [g]).count g = 1 := by
                rw [List.count_append]
                simp [List.count_eq_zero.2 hel]
              have hcount2 : 2 ≤ (List.insertionSort scoreLe (led ++ [g])).count g := by
                rw [← List.take_append_drop 5 (List.insertionSort scoreLe (led ++ [g])),
                  List.count_append, hg]
                have h1c : 0 < ((List.insertionSort scoreLe (led ++ [g])).take 5).count g :=
                  List.count_pos_iff.2 hf
                simp only [List.count_singleton, beq_self_eq_true, if_true]
                omega
              rw [hperm.count_eq] at hcount2
              omega
    · have hxeq : x = e := by simpa using hxe
      subst hxeq
      rcases hmem_split x (hperm.mem_iff.2 (List.mem_append_right _ (List.mem_singleton_self x)))
        with h | h
      · exact Or.inl h
      · exact Or.inr (fun f hf => htds f hf x h)

theorem foldl_recordScore_inv (es : List HighScore) :
    ∀ (rec led : List HighScore),
    List.Pairwise scoreLe led → led.length = min 5 rec.length → led.Subperm rec →
    (∀ x ∈ rec, x ∈ led ∨ ∀ f ∈ led, scoreLe f x) →
    List.Pairwise scoreLe (es.foldl recordScore led) ∧
    (es.foldl recordScore led).length = min 5 (rec ++ es).length ∧
    (es.foldl recordScore led).Subperm (rec ++ es) ∧
    (∀ x ∈ rec ++ es, x ∈ es.foldl recordScore led ∨
      ∀ f ∈ es.foldl recordScore led, scoreLe f x) := by
  induction es with
  | nil =>
    intro rec led h1 h2 h3 h4
    simpa using ⟨h1, h2, h3, h4⟩
  | cons e es ih =>
    intro rec led h1 h2 h3 h4
    obtain ⟨g1, g2, g3, g4⟩ := recordScore_inv e h1 h2 h3 h4
    have hmain := ih (rec ++ [e]) (recordScore led e) g1 g2 g3 g4
    simpa [List.append_assoc] using hmain

/-- C4: for every sequence of recorded entries, the resulting ledger is
sorted ascending by (time, then moves), has length 5 (or the number recorded if
fewer), is drawn from the recorded entries, and every recorded entry missing
from it is at least as bad as everything kept — the ledger is exactly a best-5
selection under that order. -/
theorem ledger_best_five (entries : List HighScore) :
    List.Pairwise scoreLe (entries.foldl recordScore []) ∧
    (entries.foldl recordScore []).length = min 5 entries.length ∧
    (entries.foldl recordScore []).Subperm entries ∧
    ∀ x ∈ entries, x ∈ entries.foldl recordScore [] ∨
      ∀ f ∈ entries.foldl recordScore [], scoreLe f x := by
  have hmain := foldl_recordScore_inv entries [] [] (by simp) (by simp)
    List.nil_subperm (by simp)
  simpa using hmain
